import Mathlib

/-!
Shallow embedding of the saros-unix eclipse catalog pipeline.

Source files embedded here:
  * `src/db/build_db.py` — type maps, record packers, the catalog builder;
  * `src/check_sanity.py` — the integrity validator;
  * `src/export_csv.py` — the catalog reader (type decode, range filter).

Python floats are modelled as rationals, Python `round` as round-half-to-even,
Python `struct.pack` as byte-list encoders that fail (`Option.none`) exactly
when the packed value is out of the field's range, and any Python exception
that aborts a build as `Option.none`.
-/

namespace Saros

/-- Python `round`: round half to even (banker's rounding), on rationals. -/
def pyRound (q : ℚ) : ℤ :=
  if q - (⌊q⌋ : ℚ) < 1/2 then ⌊q⌋
  else if 1/2 < q - (⌊q⌋ : ℚ) then ⌊q⌋ + 1
  else if ⌊q⌋ % 2 = 0 then ⌊q⌋ else ⌊q⌋ + 1

/-- Value of a nonempty all-digit character list, else `none` (Python `int` on digits). -/
def digitsVal (l : List Char) : Option ℕ :=
  if l = [] then none
  else if l.all (·.isDigit) then
    some (l.foldl (fun acc c => acc * 10 + (c.toNat - 48)) 0)
  else none

/-- Python `int(s)` restricted to an optional leading minus sign followed by
digits, on the string's character list. -/
def pyInt (l : List Char) : Option ℤ :=
  match l with
  | '-' :: rest => (digitsVal rest).map (fun n => -(n : ℤ))
  | _ => (digitsVal l).map (fun n => (n : ℤ))

/-- Python `s.rstrip(c)`: drop every trailing occurrence of `c`. -/
def rstripChar (c : Char) (l : List Char) : List Char :=
  (l.reverse.dropWhile (· == c)).reverse

/-- Python `s.split(c)` for a one-character separator: split on every
occurrence, keeping empty parts (`"".split("m") == [""]`). -/
def splitOnChar (c : Char) : List Char → List (List Char)
  | [] => [[]]
  | ch :: rest =>
    let r := splitOnChar c rest
    if ch = c then [] :: r
    else
      match r with
      | [] => [[ch]]
      | h :: t => (ch :: h) :: t

/-- `struct` format `B`: one unsigned byte; fails outside `0..255`. -/
def packU8 (v : ℤ) : Option (List ℕ) :=
  if 0 ≤ v ∧ v ≤ 255 then some [v.toNat] else none

/-- `struct` format `<H`: unsigned 16-bit little-endian; fails outside `0..65535`. -/
def packU16 (v : ℤ) : Option (List ℕ) :=
  if 0 ≤ v ∧ v ≤ 65535 then some [v.toNat % 256, v.toNat / 256] else none

/-- `struct` format `<h`: signed 16-bit little-endian (two's complement);
fails outside `-32768..32767`. -/
def packI16 (v : ℤ) : Option (List ℕ) :=
  if -32768 ≤ v ∧ v ≤ 32767 then
    some [(v % 65536).toNat % 256, (v % 65536).toNat / 256]
  else none

/-- Little-endian unsigned 16-bit field read at byte offset `k` of a byte list. -/
def u16le (bs : List ℕ) (k : ℕ) : ℕ :=
  bs.getD k 0 + 256 * bs.getD (k + 1) 0

/-- `SOLAR_ECL_TYPE_MAP` from `build_db.py`: solar type code string → uint8. -/
def SOLAR_ECL_TYPE_MAP : List (String × ℕ) :=
  [("A", 0), ("A+", 1), ("A-", 2), ("Am", 3), ("An", 4), ("As", 5),
   ("H", 6), ("H2", 7), ("H3", 8), ("Hm", 9),
   ("P", 10), ("Pb", 11), ("Pe", 12),
   ("T", 13), ("T+", 14), ("T-", 15), ("Tm", 16), ("Tn", 17), ("Ts", 18)]

/-- `LUNAR_ECL_TYPE_MAP` from `build_db.py`: lunar type code string → uint8. -/
def LUNAR_ECL_TYPE_MAP : List (String × ℕ) :=
  [("N", 0), ("Nb", 1), ("Ne", 2), ("Nx", 3),
   ("P", 4), ("Pb", 5), ("Pe", 6),
   ("T", 7), ("T+", 8), ("T-", 9), ("Tm", 10), ("Tn", 11), ("Ts", 12)]

/-- Kind-specific payload of one solar eclipse JSONL record, as read by the
builder (`latitude_deg`, `longitude_deg`, `central_duration`, `ecl_type`,
`sun_alt` keys). -/
structure SolarData where
  latitude_deg : ℚ
  longitude_deg : ℚ
  central_duration : Option String
  ecl_type : String
  sun_alt : Option ℤ
  deriving DecidableEq, Repr

/-- Kind-specific payload of one lunar eclipse JSONL record
(`pen_duration_m`, `par_duration_m`, `total_duration_m`, `ecl_type` keys). -/
structure LunarData where
  pen_duration_m : Option ℚ
  par_duration_m : Option ℚ
  total_duration_m : Option ℚ
  ecl_type : String
  deriving DecidableEq, Repr

/-- One eclipse record as held by the builder: the `_saros_number` and
`_saros_pos` fields stamped on by `load_eclipses`, the `unix_timestamp`,
and the kind-specific payload. -/
structure Entry (α : Type) where
  sn : ℕ
  pos : ℕ
  ts : ℤ
  data : α
  deriving DecidableEq, Repr

/-- `dur_s.rstrip("s").split("m")` then `int(mins) * 60 + int(secs)` from
`pack_solar_info`; `none` models the `ValueError` on a malformed string. -/
def parseDurationStr (s : String) : Option ℤ :=
  match splitOnChar 'm' (rstripChar 's' s.data) with
  | [m, sec] => do
      let a ← pyInt m
      let b ← pyInt sec
      pure (a * 60 + b)
  | _ => none

/-- `pack_solar_info` from `build_db.py`. `none` models any raised exception
(`ValueError` on the duration string, `KeyError` on the type map,
`struct.error` on an out-of-range field). -/
def pack_solar_info (e : Entry SolarData) : Option (List ℕ) := do
  let lat10 := pyRound (e.data.latitude_deg * 10)
  let lon10 := pyRound (e.data.longitude_deg * 10)
  let dur ← match e.data.central_duration with
    | some s => parseDurationStr s
    | none => pure (0xFFFF : ℤ)
  let ecl ← (SOLAR_ECL_TYPE_MAP.lookup e.data.ecl_type).map (fun n => (n : ℤ))
  let alt := e.data.sun_alt.getD 0
  let b0 ← packI16 lat10
  let b1 ← packI16 lon10
  let b2 ← packU16 dur
  let b3 ← packU8 (e.sn : ℤ)
  let b4 ← packU8 (e.pos : ℤ)
  let b5 ← packU8 ecl
  let b6 ← packU8 alt
  pure (b0 ++ b1 ++ b2 ++ b3 ++ b4 ++ b5 ++ b6)

/-- `_minutes_to_seconds` from `build_db.py`: fractional minutes to integer
seconds, `0xFFFF` when absent, upper-clamped to `0xFFFE`. -/
def minutes_to_seconds (val : Option ℚ) : ℤ :=
  match val with
  | none => 0xFFFF
  | some v => min (pyRound (v * 60)) 0xFFFE

/-- `pack_lunar_info` from `build_db.py`. Note the type lookup uses
`LUNAR_ECL_TYPE_MAP.get(e["ecl_type"], 0)` — a silent default of `0`. -/
def pack_lunar_info (e : Entry LunarData) : Option (List ℕ) := do
  let pen := minutes_to_seconds e.data.pen_duration_m
  let par := minutes_to_seconds e.data.par_duration_m
  let total := minutes_to_seconds e.data.total_duration_m
  let ecl : ℤ := ((LUNAR_ECL_TYPE_MAP.lookup e.data.ecl_type).getD 0 : ℕ)
  let b0 ← packU16 pen
  let b1 ← packU16 par
  let b2 ← packU16 total
  let b3 ← packU8 (e.sn : ℤ)
  let b4 ← packU8 (e.pos : ℤ)
  let b5 ← packU8 ecl
  let b6 ← packU8 0
  pure (b0 ++ b1 ++ b2 ++ b3 ++ b4 ++ b5 ++ b6)

/-- Helper of `load_eclipses`: stamp `_saros_number := sn` and
`_saros_pos := i` (the running line index) onto each record of one series
file, mirroring `for i, line in enumerate(f)`. -/
def tagPositions {α : Type} (sn : ℕ) : ℕ → List (ℤ × α) → List (Entry α)
  | _, [] => []
  | i, (ts, d) :: rest => ⟨sn, i, ts, d⟩ :: tagPositions sn (i + 1) rest

/-- `load_eclipses` from `build_db.py`, over an abstract directory listing:
one `(saros_number, records)` pair per digit-named series directory, records
given as `(unix_timestamp, payload)` in file line order. -/
def load_eclipses {α : Type} : List (ℕ × List (ℤ × α)) → List (Entry α)
  | [] => []
  | (sn, recs) :: rest => tagPositions sn 0 recs ++ load_eclipses rest

/-- The key relation of `eclipses.sort(key=lambda e: e["unix_timestamp"])`. -/
def byTs {α : Type} (a b : Entry α) : Prop := a.ts ≤ b.ts

instance {α : Type} : DecidableRel (@byTs α) := fun a b => Int.decLe a.ts b.ts

instance {α : Type} : IsTotal (Entry α) byTs := ⟨fun a b => le_total a.ts b.ts⟩

instance {α : Type} : IsTrans (Entry α) byTs :=
  ⟨fun _ _ _ hab hbc => le_trans hab hbc⟩

/-- The global merge sort of `build`: a stable sort by `unix_timestamp`. -/
def sortByTime {α : Type} (es : List (Entry α)) : List (Entry α) :=
  List.insertionSort byTs es

/-- The per-series list of the builder's `saros_index_map`: the global indices
(enumeration order of the time-sorted list) whose record carries saros number
`sn`, in the order `dict.setdefault(...).append(global_idx)` produces them.
`i` is the running enumeration counter. -/
def sarosIndices {α : Type} (sn : ℕ) : ℕ → List (Entry α) → List ℕ
  | _, [] => []
  | i, e :: rest =>
      (if e.sn = sn then [i] else []) ++ sarosIndices sn (i + 1) rest

/-- `MAX_ECLIPSES_PER_SAROS` from `build_db.py`. -/
def MAX_ECLIPSES_PER_SAROS : ℕ := 96

/-- One `saros.db` slot as packed by `SAROS_ENTRY_RECORD.pack(count, 0,
*padded)`: the member count and the zero-padded index array. `none` models
the `struct.error` when the count exceeds the capacity or exceeds a byte, or
an index exceeds 16 bits. -/
def packSarosSlot (indices : List ℕ) : Option (ℕ × List ℕ) :=
  let count := indices.length
  if count ≤ MAX_ECLIPSES_PER_SAROS ∧ count ≤ 255 ∧ indices.all (· ≤ 65535) then
    some (count, indices ++ List.replicate (MAX_ECLIPSES_PER_SAROS - count) 0)
  else none

/-- `ECLIPSE_TIMES_RECORD` (`<q`): the stored int64 timestamp; `none` models
the `struct.error` outside the signed 64-bit range. -/
def packTime (ts : ℤ) : Option ℤ :=
  if -(2 ^ 63) ≤ ts ∧ ts < 2 ^ 63 then some ts else none

/-- Sequential `Option`-valued map: fails at the first failing element, as the
builder's sequential write loop raises at the first bad record. -/
def optMap {α β : Type} (f : α → Option β) : List α → Option (List β)
  | [] => some []
  | x :: xs =>
    match f x, optMap f xs with
    | some y, some ys => some (y :: ys)
    | _, _ => none

/-- A built binary catalog for one eclipse kind: `eclipse_times.db` (as the
stored timestamps), `eclipse_info.db` (one 10-byte record per eclipse) and
`saros.db` (180 slots, each a count plus padded index array). -/
structure Catalog where
  times : List ℤ
  info : List (List ℕ)
  slots : List (ℕ × List ℕ)
  deriving DecidableEq, Repr

/-- `build` from `build_db.py` for one kind, parametrized by the kind's
record packer. Returns `none` when no eclipses were loaded (the build is
skipped) or when any record or slot fails to pack (the build aborts). -/
def build {α : Type} (packInfo : Entry α → Option (List ℕ))
    (files : List (ℕ × List (ℤ × α))) : Option Catalog :=
  let es := load_eclipses files
  if es.isEmpty then none
  else
    let sorted := sortByTime es
    match optMap packTime (sorted.map Entry.ts),
          optMap packInfo sorted,
          optMap (fun sn => packSarosSlot (sarosIndices sn 0 sorted))
            (List.range' 1 180) with
    | some times, some info, some slots => some ⟨times, info, slots⟩
    | _, _, _ => none

/-! ### Integrity validator (`src/check_sanity.py`) -/

/-- One eclipse record as read by the validator: `rel_num`,
`unix_timestamp`, `calendar_date`. -/
structure VRec where
  rel_num : ℤ
  unix_timestamp : ℤ
  calendar_date : String
  deriving DecidableEq, Repr

/-- The key relation of `sorted(data, key=lambda e: e["rel_num"])`. -/
def byRel (a b : VRec) : Prop := a.rel_num ≤ b.rel_num

instance : DecidableRel byRel := fun a b => Int.decLe a.rel_num b.rel_num

instance : IsTotal VRec byRel := ⟨fun a b => le_total a.rel_num b.rel_num⟩

instance : IsTrans VRec byRel := ⟨fun _ _ _ hab hbc => le_trans hab hbc⟩

/-- The validator's per-series stable sort by `rel_num`. -/
def sortByRel (l : List VRec) : List VRec := List.insertionSort byRel l

/-- One reported sequence-contiguity defect: the gap and both endpoints'
relative number and calendar date, as appended to `rel_gap_errors`. -/
structure RelDefect where
  gap : ℤ
  rel1 : ℤ
  date1 : String
  rel2 : ℤ
  date2 : String
  deriving DecidableEq, Repr

/-- The `for i in range(1, len(by_rel))` walk of the rel_num gap check:
one defect per adjacent pair whose `rel_num` difference is not exactly 1. -/
def relGapWalk : VRec → List VRec → List RelDefect
  | _, [] => []
  | prev, cur :: rest =>
      (if cur.rel_num - prev.rel_num ≠ 1 then
        [⟨cur.rel_num - prev.rel_num, prev.rel_num, prev.calendar_date,
          cur.rel_num, cur.calendar_date⟩]
      else []) ++ relGapWalk cur rest

/-- Sequence-contiguity defects of one (already rel_num-sorted) series. -/
def relGapList : List VRec → List RelDefect
  | [] => []
  | a :: rest => relGapWalk a rest

/-- One reported chronological-spacing defect: both endpoints' dates. -/
structure TimeDefect where
  date1 : String
  date2 : String
  deriving DecidableEq, Repr

/-- The time-gap walk: one defect per adjacent pair (in rel_num order) whose
timestamp difference exceeds `max_gap_secs`. -/
def timeGapWalk (maxGapSecs : ℚ) : VRec → List VRec → List TimeDefect
  | _, [] => []
  | prev, cur :: rest =>
      (if maxGapSecs < ((cur.unix_timestamp - prev.unix_timestamp : ℤ) : ℚ) then
        [⟨prev.calendar_date, cur.calendar_date⟩]
      else []) ++ timeGapWalk maxGapSecs cur rest

/-- Chronological-spacing defects of one (already rel_num-sorted) series. -/
def timeGapList (maxGapSecs : ℚ) : List VRec → List TimeDefect
  | [] => []
  | a :: rest => timeGapWalk maxGapSecs a rest

/-- Outcome of opening and parsing one series' `eclipses.jsonl`: the read or
JSON parse raised (`unreadable`), or it yielded a record list (`parsed`). -/
inductive FileOutcome where
  | unreadable
  | parsed (recs : List VRec)
  deriving DecidableEq, Repr

/-- A kind's data directory: one `(saros_number, outcome)` pair per existing
series file, as enumerated by the validator's glob. -/
abbrev SeriesDir := List (ℕ × FileOutcome)

/-- The coverage check of `check_series`: saros numbers 1..180 with no
series file present, in ascending order. -/
def missingList (dir : SeriesDir) : List ℕ :=
  (List.range' 1 180).filter (fun sn => ¬ dir.any (fun e => e.1 = sn))

/-- The per-file loop of `check_series`: accumulated early error count
(unreadable and empty files, `continue` after each) together with the
collected rel_num-gap and time-gap defect lists of the readable files. -/
def processFiles (maxGapSecs : ℚ) :
    SeriesDir → ℕ × List RelDefect × List TimeDefect
  | [] => (0, [], [])
  | (_, .unreadable) :: rest =>
      ((processFiles maxGapSecs rest).1 + 1,
       (processFiles maxGapSecs rest).2.1,
       (processFiles maxGapSecs rest).2.2)
  | (_, .parsed []) :: rest =>
      ((processFiles maxGapSecs rest).1 + 1,
       (processFiles maxGapSecs rest).2.1,
       (processFiles maxGapSecs rest).2.2)
  | (_, .parsed (a :: l)) :: rest =>
      ((processFiles maxGapSecs rest).1,
       relGapList (sortByRel (a :: l)) ++ (processFiles maxGapSecs rest).2.1,
       timeGapList maxGapSecs (sortByRel (a :: l)) ++ (processFiles maxGapSecs rest).2.2)

/-- `check_series` from `check_sanity.py`: the total error count for one
kind — missing series, unreadable/empty files, rel_num gaps, time gaps. -/
def check_series (dir : SeriesDir) (maxGapYears : ℚ) : ℕ :=
  (missingList dir).length +
    (processFiles (maxGapYears * (365.25 : ℚ) * 86400) dir).1 +
    (processFiles (maxGapYears * (365.25 : ℚ) * 86400) dir).2.1.length +
    (processFiles (maxGapYears * (365.25 : ℚ) * 86400) dir).2.2.length

/-- `main` from `check_sanity.py` run on both kinds: the process exit status,
`sys.exit(0 if total_errors == 0 else 1)`. -/
def validatorExit (solarDir lunarDir : SeriesDir) (maxGapYears : ℚ) : ℕ :=
  let total := check_series solarDir maxGapYears + check_series lunarDir maxGapYears
  if total = 0 then 0 else 1

/-! ### Catalog reader (`src/export_csv.py`) -/

/-- `SOLAR_TYPE_NAMES` from `export_csv.py`. -/
def SOLAR_TYPE_NAMES : List String :=
  ["A", "A+", "A-", "Am", "An", "As",
   "H", "H2", "H3", "Hm",
   "P", "Pb", "Pe",
   "T", "T+", "T-", "Tm", "Tn", "Ts"]

/-- `LUNAR_TYPE_NAMES` from `export_csv.py`. -/
def LUNAR_TYPE_NAMES : List String :=
  ["N", "Nb", "Ne", "Nx",
   "P", "Pb", "Pe",
   "T", "T+", "T-", "Tm", "Tn", "Ts"]

/-- The solar type decode of `_load_info_solar`:
`SOLAR_TYPE_NAMES[ecl_type] if ecl_type < len(SOLAR_TYPE_NAMES) else
str(ecl_type)`. Total: an out-of-range byte yields its decimal string. -/
def decodeSolarType (c : ℕ) : String :=
  if c < SOLAR_TYPE_NAMES.length then SOLAR_TYPE_NAMES.getD c "" else toString c

/-- The lunar type decode of `_load_info_lunar`. -/
def decodeLunarType (c : ℕ) : String :=
  if c < LUNAR_TYPE_NAMES.length then LUNAR_TYPE_NAMES.getD c "" else toString c

/-- One row assembled by `load_kind`: timestamp, saros number, type label. -/
structure Row where
  ts : ℤ
  saros_number : ℕ
  type_label : String
  deriving DecidableEq, Repr

/-- The key relation of `rows.sort(key=lambda r: r["ts"])`. -/
def rowByTs (a b : Row) : Prop := a.ts ≤ b.ts

instance : DecidableRel rowByTs := fun a b => Int.decLe a.ts b.ts

instance : IsTotal Row rowByTs := ⟨fun a b => le_total a.ts b.ts⟩

instance : IsTrans Row rowByTs := ⟨fun _ _ _ hab hbc => le_trans hab hbc⟩

/-- The range-query core of `export_csv.main` with both bounds given: sort
all rows by timestamp, then keep `r["ts"] >= ts_start`, then keep
`r["ts"] <= ts_end` (two successive list comprehensions). -/
def rangeQuery (rows : List Row) (tsStart tsEnd : ℤ) : List Row :=
  let sorted := List.insertionSort rowByTs rows
  let afterStart := sorted.filter (fun r => tsStart ≤ r.ts)
  afterStart.filter (fun r => r.ts ≤ tsEnd)

/-- Specification-side decomposition of the validator's per-file error
contribution: one error for an unreadable file, one for an empty file, and
one per rel_num-gap and time-gap defect of a readable file. -/
def fileDefectCount (gs : ℚ) : FileOutcome → ℕ
  | .unreadable => 1
  | .parsed [] => 1
  | .parsed (a :: l) =>
      (relGapList (sortByRel (a :: l))).length +
        (timeGapList gs (sortByRel (a :: l))).length

/-! ### Concrete example inputs used by the claim theorems -/

/-- Lunar record whose `ecl_type` string "Z" is not in `LUNAR_ECL_TYPE_MAP`. -/
def c1LunarBad : Entry LunarData := ⟨7, 3, 2000, ⟨none, none, none, "Z"⟩⟩

/-- Solar record whose `ecl_type` string "Z" is not in `SOLAR_ECL_TYPE_MAP`. -/
def c1SolarBad : Entry SolarData := ⟨7, 3, 2000, ⟨0, 0, none, "Z", none⟩⟩

/-- Solar record with central duration "1092m15s" = 65535 seconds. -/
def c2SolarBig : Entry SolarData := ⟨5, 2, 1000, ⟨0, 0, some "1092m15s", "T", some 10⟩⟩

/-- One series file whose two records are not in timestamp order. -/
def c3Files : List (ℕ × List (ℤ × Unit)) := [(1, [(200, ()), (100, ())])]

/-- Two well-formed series files with distinct saros numbers. -/
def c3GoodFiles : List (ℕ × List (ℤ × Unit)) :=
  [(1, [(100, ()), (200, ())]), (2, [(50, ())])]

/-- One series file in a digit-named directory "181", outside 1..180. -/
def c4BadFiles : List (ℕ × List (ℤ × LunarData)) :=
  [(181, [(500, ⟨none, none, none, "T"⟩)])]

/-- The catalog the builder produces from `c4BadFiles`. -/
def c4BadCat : Catalog := (build pack_lunar_info c4BadFiles).getD ⟨[], [], []⟩

/-- A two-record lunar input with its saros number in range. -/
def cwGoodFiles : List (ℕ × List (ℤ × LunarData)) :=
  [(5, [(200, ⟨none, none, none, "T"⟩), (100, ⟨none, none, none, "P"⟩)])]

/-- The catalog the builder produces from `cwGoodFiles`. -/
def cwGoodCat : Catalog := (build pack_lunar_info cwGoodFiles).getD ⟨[], [], []⟩

/-- A 5-member series with relative numbers 1,2,3,5,6, given out of order. -/
def c6Series : List VRec :=
  [⟨5, 500, "d5"⟩, ⟨1, 100, "d1"⟩, ⟨6, 600, "d6"⟩, ⟨2, 200, "d2"⟩, ⟨3, 300, "d3"⟩]

/-- Reader rows with timestamps 100, 200, 200, 300. -/
def c9Rows : List Row :=
  [⟨100, 1, "S [T]"⟩, ⟨200, 2, "S [A]"⟩, ⟨200, 3, "S [P]"⟩, ⟨300, 4, "S [H]"⟩]

/-- Solar record with `sun_alt` absent. -/
def c10Absent : Entry SolarData := ⟨1, 0, 0, ⟨0, 0, none, "T", none⟩⟩

/-- Solar record identical to `c10Absent` except `sun_alt` is a genuine 0. -/
def c10Zero : Entry SolarData := ⟨1, 0, 0, ⟨0, 0, none, "T", some 0⟩⟩

/-! ### Supporting lemmas -/

theorem tagPositions_map_pos {α : Type} (sn : ℕ) (i : ℕ) (recs : List (ℤ × α)) :
    (tagPositions sn i recs).map Entry.pos = List.range' i recs.length := by
  induction recs generalizing i with
  | nil => simp [tagPositions]
  | cons r rest ih =>
      obtain ⟨ts, d⟩ := r
      simp [tagPositions, List.range', ih]

theorem tagPositions_map_ts {α : Type} (sn : ℕ) (i : ℕ) (recs : List (ℤ × α)) :
    (tagPositions sn i recs).map Entry.ts = recs.map Prod.fst := by
  induction recs generalizing i with
  | nil => simp [tagPositions]
  | cons r rest ih =>
      obtain ⟨ts, d⟩ := r
      simp [tagPositions, ih]

theorem sn_of_mem_tagPositions {α : Type} {sn i : ℕ} {recs : List (ℤ × α)}
    {e : Entry α} (h : e ∈ tagPositions sn i recs) : e.sn = sn := by
  induction recs generalizing i with
  | nil => simp [tagPositions] at h
  | cons r rest ih =>
      obtain ⟨ts, d⟩ := r
      rcases (by simpa [tagPositions] using h) with h' | h'
      · rw [h']
      · exact ih h'

theorem filter_tagPositions_self {α : Type} (sn i : ℕ) (recs : List (ℤ × α)) :
    (tagPositions sn i recs).filter (fun e => e.sn = sn) = tagPositions sn i recs :=
  List.filter_eq_self.mpr fun e he => by
    simp [sn_of_mem_tagPositions he]

theorem filter_tagPositions_ne {α : Type} {sn sn' : ℕ} (hne : sn' ≠ sn) (i : ℕ)
    (recs : List (ℤ × α)) :
    (tagPositions sn' i recs).filter (fun e => e.sn = sn) = [] :=
  List.filter_eq_nil_iff.mpr fun e he => by
    simp [sn_of_mem_tagPositions he, hne]

theorem filter_load_eclipses_not_mem {α : Type} {sn : ℕ}
    {files : List (ℕ × List (ℤ × α))} (h : sn ∉ files.map Prod.fst) :
    (load_eclipses files).filter (fun e => e.sn = sn) = [] := by
  induction files with
  | nil => simp [load_eclipses]
  | cons f rest ih =>
      obtain ⟨sn', recs⟩ := f
      simp only [List.map_cons, List.mem_cons] at h
      push_neg at h
      simp only [load_eclipses, List.filter_append,
        filter_tagPositions_ne (fun hc => h.1 hc.symm), List.nil_append]
      exact ih h.2

theorem optMap_eq_some_iff {α β : Type} (f : α → Option β) :
    ∀ (l : List α) (ys : List β),
      optMap f l = some ys ↔ List.Forall₂ (fun x y => f x = some y) l ys := by
  intro l
  induction l with
  | nil =>
      intro ys
      constructor
      · intro h
        cases (by simpa [optMap] using h)
        exact List.Forall₂.nil
      · intro h
        cases h
        simp [optMap]
  | cons x xs ih =>
      intro ys
      constructor
      · intro h
        simp only [optMap] at h
        cases hx : f x with
        | none => rw [hx] at h; simp at h
        | some y =>
            cases hxs : optMap f xs with
            | none => rw [hx, hxs] at h; simp at h
            | some ys' =>
                rw [hx, hxs] at h
                simp only [Option.some_inj] at h
                subst h
                exact List.Forall₂.cons hx ((ih ys').mp hxs)
      · intro h
        cases h with
        | cons hx hxs =>
            simp only [optMap, hx, (ih _).mpr hxs]

theorem optMap_length {α β : Type} {f : α → Option β} {l : List α} {ys : List β}
    (h : optMap f l = some ys) : ys.length = l.length :=
  (List.Forall₂.length_eq ((optMap_eq_some_iff f l ys).mp h)).symm

theorem optMap_packTime_eq {l : List ℤ} {ys : List ℤ}
    (h : optMap packTime l = some ys) : ys = l := by
  have h2 := (optMap_eq_some_iff packTime l ys).mp h
  clear h
  induction h2 with
  | nil => rfl
  | cons hx _ ih =>
      simp only [packTime] at hx
      split at hx
      · simp only [Option.some_inj] at hx
        rw [ih, hx]
      · simp at hx

theorem mem_sarosIndices_iff {α : Type} (sn : ℕ) (l : List (Entry α)) :
    ∀ (start j : ℕ),
      j ∈ sarosIndices sn start l ↔
        ∃ k, ∃ h : k < l.length, j = start + k ∧ (l.get ⟨k, h⟩).sn = sn := by
  induction l with
  | nil => simp [sarosIndices]
  | cons e rest ih =>
      intro start j
      simp only [sarosIndices, List.mem_append, ih (start + 1) j]
      constructor
      · rintro (h | ⟨k, hk, hj, hsn⟩)
        · have he : e.sn = sn ∧ j = start := by
            by_cases hc : e.sn = sn <;> simp [hc] at h <;> simp [hc, h]
          exact ⟨0, by simp, by omega, he.1⟩
        · exact ⟨k + 1, by simpa using hk, by omega, hsn⟩
      · rintro ⟨k, hk, hj, hsn⟩
        cases k with
        | zero =>
            left
            simp only [List.get] at hsn
            simp [hsn, hj]
        | succ k' =>
            right
            exact ⟨k', by simpa using hk, by omega, hsn⟩

theorem sarosIndices_ge {α : Type} (sn : ℕ) (l : List (Entry α)) :
    ∀ (start j : ℕ), j ∈ sarosIndices sn start l → start ≤ j := by
  intro start j h
  obtain ⟨k, hk, hj, _⟩ := (mem_sarosIndices_iff sn l start j).mp h
  omega

theorem sorted_sarosIndices {α : Type} (sn : ℕ) (l : List (Entry α)) :
    ∀ start : ℕ, List.Sorted (· < ·) (sarosIndices sn start l) := by
  induction l with
  | nil => intro start; simp [sarosIndices]
  | cons e rest ih =>
      intro start
      simp only [sarosIndices]
      by_cases hc : e.sn = sn
      · rw [if_pos hc, List.singleton_append, List.sorted_cons]
        exact ⟨fun j hj => lt_of_lt_of_le (by omega) (sarosIndices_ge sn rest (start + 1) j hj),
               ih (start + 1)⟩
      · simp only [if_neg hc, List.nil_append]
        exact ih (start + 1)

theorem length_sarosIndices {α : Type} (sn : ℕ) (l : List (Entry α)) :
    ∀ start : ℕ,
      (sarosIndices sn start l).length = l.countP (fun e => e.sn = sn) := by
  induction l with
  | nil => intro _; simp [sarosIndices]
  | cons e rest ih =>
      intro start
      simp only [sarosIndices, List.length_append, ih (start + 1), List.countP_cons]
      by_cases hc : e.sn = sn <;> simp [hc] <;> omega

theorem packSarosSlot_count {indices : List ℕ} {s : ℕ × List ℕ}
    (h : packSarosSlot indices = some s) :
    s.1 = indices.length ∧ s.2.take s.1 = indices := by
  simp only [packSarosSlot] at h
  split at h
  · simp only [Option.some_inj] at h
    subst h
    exact ⟨rfl, by simpa using List.take_left indices _⟩
  · simp at h

theorem sum_map_add_distrib (S : List ℕ) (g h : ℕ → ℕ) :
    (S.map (fun x => g x + h x)).sum = (S.map g).sum + (S.map h).sum := by
  induction S with
  | nil => simp
  | cons a rest ih => simp [ih]; omega

theorem sum_map_ite_zero (v : ℕ) :
    ∀ S : List ℕ, v ∉ S → (S.map (fun sn => if v = sn then 1 else 0)).sum = 0 := by
  intro S
  induction S with
  | nil => simp
  | cons a rest ih =>
      intro hv
      simp only [List.mem_cons] at hv
      push_neg at hv
      simp [hv.1, ih hv.2]

theorem sum_map_ite_one {v : ℕ} :
    ∀ S : List ℕ, S.Nodup → v ∈ S →
      (S.map (fun sn => if v = sn then 1 else 0)).sum = 1 := by
  intro S
  induction S with
  | nil => simp
  | cons a rest ih =>
      intro hnd hv
      rcases List.mem_cons.mp hv with rfl | hv'
      · have : v ∉ rest := (List.nodup_cons.mp hnd).1
        simp [sum_map_ite_zero v rest this]
      · have hne : v ≠ a := by
          rintro rfl
          exact (List.nodup_cons.mp hnd).1 hv'
        simp [hne, ih (List.nodup_cons.mp hnd).2 hv']

theorem countP_key_partition {α : Type} (f : α → ℕ) (S : List ℕ) (hnd : S.Nodup) :
    ∀ l : List α, (∀ x ∈ l, f x ∈ S) →
      (S.map (fun sn => l.countP (fun x => f x = sn))).sum = l.length := by
  intro l
  induction l with
  | nil => simp
  | cons x rest ih =>
      intro hmem
      have hx : f x ∈ S := hmem x (List.mem_cons_self x rest)
      have hrest := ih (fun y hy => hmem y (List.mem_cons_of_mem x hy))
      have hfun :
          (fun sn => (x :: rest).countP (fun e => f e = sn)) =
            (fun sn => rest.countP (fun e => f e = sn) + if f x = sn then 1 else 0) := by
        funext sn
        simp [List.countP_cons]
      rw [hfun, sum_map_add_distrib, hrest, sum_map_ite_one S hnd hx]
      simp

theorem build_eq_some_parts {α : Type} {pack : Entry α → Option (List ℕ)}
    {files : List (ℕ × List (ℤ × α))} {cat : Catalog}
    (h : build pack files = some cat) :
    cat.times = (sortByTime (load_eclipses files)).map Entry.ts ∧
    cat.slots.length = 180 ∧
    ∀ k (hk : k < cat.slots.length),
      packSarosSlot (sarosIndices (1 + k) 0 (sortByTime (load_eclipses files)))
        = some (cat.slots.get ⟨k, hk⟩) := by
  simp only [build] at h
  by_cases he : (load_eclipses files).isEmpty
  · rw [if_pos he] at h
    exact absurd h (by simp)
  · rw [if_neg he] at h
    cases h1 : optMap packTime ((sortByTime (load_eclipses files)).map Entry.ts) with
    | none => rw [h1] at h; simp at h
    | some times =>
        cases h2 : optMap pack (sortByTime (load_eclipses files)) with
        | none => rw [h1, h2] at h; simp at h
        | some info =>
            cases h3 : optMap
                (fun sn => packSarosSlot (sarosIndices sn 0 (sortByTime (load_eclipses files))))
                (List.range' 1 180) with
            | none => rw [h1, h2, h3] at h; simp at h
            | some slots =>
                rw [h1, h2, h3] at h
                simp only [Option.some_inj] at h
                subst h
                have hf := (optMap_eq_some_iff _ _ _).mp h3
                have hlen : slots.length = 180 := by
                  simpa using (List.Forall₂.length_eq hf).symm
                refine ⟨by simpa using optMap_packTime_eq h1, by simpa using hlen, ?_⟩
                intro k hk
                have hk2 : k < slots.length := by simpa using hk
                have hk' : k < (List.range' 1 180).length := by simpa using hlen ▸ hk2
                have := hf.get hk' hk2
                simpa [List.get_range'] using this

theorem sorted_sortByTime {α : Type} (es : List (Entry α)) :
    List.Sorted byTs (sortByTime es) :=
  List.sorted_insertionSort byTs es

theorem mem_sortByTime {α : Type} {es : List (Entry α)} {e : Entry α} :
    e ∈ sortByTime es ↔ e ∈ es :=
  List.mem_insertionSort byTs

theorem length_sortByTime {α : Type} (es : List (Entry α)) :
    (sortByTime es).length = es.length :=
  List.length_insertionSort byTs es

/-- Claim C5: for every catalog the Builder produces, the TimeTable is
non-decreasing end to end (ties permitted), and each SeriesIndex slot's list
truncated to its count is strictly ascending in global index value. -/
theorem c5_theorem {α : Type} (pack : Entry α → Option (List ℕ))
    (files : List (ℕ × List (ℤ × α))) (cat : Catalog)
    (h : build pack files = some cat) :
    (∀ i (hi : i + 1 < cat.times.length),
        cat.times.get ⟨i, by omega⟩ ≤ cat.times.get ⟨i + 1, hi⟩) ∧
    (∀ k (hk : k < cat.slots.length),
        List.Sorted (· < ·)
          ((cat.slots.get ⟨k, hk⟩).2.take (cat.slots.get ⟨k, hk⟩).1)) := by
  obtain ⟨ht, hsl, hslot⟩ := build_eq_some_parts h
  constructor
  · intro i hi
    have hs := sorted_sortByTime (load_eclipses files)
    have hts : List.Sorted (· ≤ ·) cat.times := by
      rw [ht]
      exact List.pairwise_map.mpr hs
    exact List.pairwise_iff_get.mp hts ⟨i, by omega⟩ ⟨i + 1, hi⟩ (by simp)
  · intro k hk
    have hcnt := packSarosSlot_count (hslot k hk)
    rw [hcnt.2]
    exact sorted_sarosIndices _ _ 0

/-- Claim C4 (amended): for every catalog the Builder produces from records
whose saros numbers all lie in 1..180, the sum of the 180 slot counts equals
the TimeTable length, every global index below the total lies in exactly one
slot's truncated list, and no truncated list repeats an index. -/
theorem c4_theorem {α : Type} (pack : Entry α → Option (List ℕ))
    (files : List (ℕ × List (ℤ × α))) (cat : Catalog)
    (h : build pack files = some cat)
    (hsn : ∀ e ∈ load_eclipses files, 1 ≤ e.sn ∧ e.sn ≤ 180) :
    ((cat.slots.map Prod.fst).sum = cat.times.length) ∧
    (∀ i, i < cat.times.length ↔
        ∃ k, ∃ hk : k < cat.slots.length,
          i ∈ (cat.slots.get ⟨k, hk⟩).2.take (cat.slots.get ⟨k, hk⟩).1) ∧
    (∀ i k1 k2 (h1 : k1 < cat.slots.length) (h2 : k2 < cat.slots.length),
        i ∈ (cat.slots.get ⟨k1, h1⟩).2.take (cat.slots.get ⟨k1, h1⟩).1 →
        i ∈ (cat.slots.get ⟨k2, h2⟩).2.take (cat.slots.get ⟨k2, h2⟩).1 →
        k1 = k2) ∧
    (∀ k (hk : k < cat.slots.length),
        ((cat.slots.get ⟨k, hk⟩).2.take (cat.slots.get ⟨k, hk⟩).1).Nodup) := by
  obtain ⟨ht, hsl, hslot⟩ := build_eq_some_parts h
  have hsn2 : ∀ e ∈ sortByTime (load_eclipses files), 1 ≤ e.sn ∧ e.sn ≤ 180 :=
    fun e he => hsn e (mem_sortByTime.mp he)
  have htlen : cat.times.length = (sortByTime (load_eclipses files)).length := by
    rw [ht]; simp
  have htrunc : ∀ k (hk : k < cat.slots.length),
      (cat.slots.get ⟨k, hk⟩).2.take (cat.slots.get ⟨k, hk⟩).1 =
        sarosIndices (1 + k) 0 (sortByTime (load_eclipses files)) :=
    fun k hk => (packSarosSlot_count (hslot k hk)).2
  have hmem : ∀ i k (hk : k < cat.slots.length),
      i ∈ (cat.slots.get ⟨k, hk⟩).2.take (cat.slots.get ⟨k, hk⟩).1 ↔
        ∃ hi : i < (sortByTime (load_eclipses files)).length,
          ((sortByTime (load_eclipses files)).get ⟨i, hi⟩).sn = 1 + k := by
    intro i k hk
    rw [htrunc k hk, mem_sarosIndices_iff]
    constructor
    · rintro ⟨k', hk', hik, hsn'⟩
      exact ⟨by omega, by simpa [show k' = i by omega] using hsn'⟩
    · rintro ⟨hi, hsn'⟩
      exact ⟨i, hi, by omega, hsn'⟩
  refine ⟨?_, ?_, ?_, ?_⟩
  · have hmapeq : cat.slots.map Prod.fst =
        (List.range' 1 180).map
          (fun sn => (sortByTime (load_eclipses files)).countP (fun e => e.sn = sn)) := by
      apply List.ext_get (by simp [hsl])
      intro k h1 h2
      have hk : k < cat.slots.length := by simpa using h1
      have hcount := (packSarosSlot_count (hslot k hk)).1
      rw [List.get_map, List.get_map, hcount, length_sarosIndices, List.get_range']
      simp
    rw [hmapeq, htlen]
    apply countP_key_partition Entry.sn (List.range' 1 180) (List.nodup_range' 1 180)
    intro e he
    have := hsn2 e he
    rw [List.mem_range'_1]
    omega
  · intro i
    rw [htlen]
    constructor
    · intro hi
      have hrange := hsn2 _ (List.get_mem (sortByTime (load_eclipses files)) i hi)
      set sn := ((sortByTime (load_eclipses files)).get ⟨i, hi⟩).sn with hsndef
      refine ⟨sn - 1, by omega, ?_⟩
      rw [hmem i (sn - 1) (by omega)]
      exact ⟨hi, by omega⟩
    · rintro ⟨k, hk, hin⟩
      obtain ⟨hi, _⟩ := (hmem i k hk).mp hin
      exact hi
  · intro i k1 k2 h1 h2 hin1 hin2
    obtain ⟨hi1, he1⟩ := (hmem i k1 h1).mp hin1
    obtain ⟨hi2, he2⟩ := (hmem i k2 h2).mp hin2
    omega
  · intro k hk
    rw [htrunc k hk]
    exact (sorted_sarosIndices _ _ 0).nodup

theorem pack_lunar_info_some {e : Entry LunarData} {bs : List ℕ}
    (h : pack_lunar_info e = some bs) :
    (0 ≤ minutes_to_seconds e.data.pen_duration_m ∧
      minutes_to_seconds e.data.pen_duration_m ≤ 65535) ∧
    (0 ≤ minutes_to_seconds e.data.par_duration_m ∧
      minutes_to_seconds e.data.par_duration_m ≤ 65535) ∧
    (0 ≤ minutes_to_seconds e.data.total_duration_m ∧
      minutes_to_seconds e.data.total_duration_m ≤ 65535) ∧
    e.sn ≤ 255 ∧ e.pos ≤ 255 ∧
    bs = [(minutes_to_seconds e.data.pen_duration_m).toNat % 256,
          (minutes_to_seconds e.data.pen_duration_m).toNat / 256,
          (minutes_to_seconds e.data.par_duration_m).toNat % 256,
          (minutes_to_seconds e.data.par_duration_m).toNat / 256,
          (minutes_to_seconds e.data.total_duration_m).toNat % 256,
          (minutes_to_seconds e.data.total_duration_m).toNat / 256,
          e.sn, e.pos,
          (LUNAR_ECL_TYPE_MAP.lookup e.data.ecl_type).getD 0, 0] := by
  simp only [pack_lunar_info, Option.pure_def, Option.bind_eq_bind,
    Option.bind_eq_some, Option.some_inj] at h
  obtain ⟨b0, h0, b1, h1, b2, h2, b3, h3, b4, h4, b5, h5, b6, h6, rfl⟩ := h
  simp only [packU16] at h0 h1 h2
  simp only [packU8] at h3 h4 h5 h6
  split at h0 <;> rename_i hc0 <;> simp at h0
  split at h1 <;> rename_i hc1 <;> simp at h1
  split at h2 <;> rename_i hc2 <;> simp at h2
  split at h3 <;> rename_i hc3 <;> simp at h3
  split at h4 <;> rename_i hc4 <;> simp at h4
  split at h5 <;> rename_i hc5 <;> simp at h5
  split at h6 <;> rename_i hc6 <;> simp at h6
  subst h0 h1 h2 h3 h4 h5 h6
  refine ⟨⟨hc0.1, hc0.2⟩, ⟨hc1.1, hc1.2⟩, ⟨hc2.1, hc2.2⟩, by omega, by omega, ?_⟩
  simp [Int.toNat_natCast]

theorem pack_solar_info_some {e : Entry SolarData} {bs : List ℕ}
    (h : pack_solar_info e = some bs) :
    ∃ dur ecl,
      (match e.data.central_duration with
        | some s => parseDurationStr s
        | none => some 65535) = some dur ∧
      SOLAR_ECL_TYPE_MAP.lookup e.data.ecl_type = some ecl ∧
      0 ≤ dur ∧ dur ≤ 65535 ∧ e.sn ≤ 255 ∧ e.pos ≤ 255 ∧
      bs = [(pyRound (e.data.latitude_deg * 10) % 65536).toNat % 256,
            (pyRound (e.data.latitude_deg * 10) % 65536).toNat / 256,
            (pyRound (e.data.longitude_deg * 10) % 65536).toNat % 256,
            (pyRound (e.data.longitude_deg * 10) % 65536).toNat / 256,
            dur.toNat % 256, dur.toNat / 256,
            e.sn, e.pos, ecl,
            (e.data.sun_alt.getD 0).toNat] := by
  cases hcd : e.data.central_duration with
  | none =>
      cases hlook : SOLAR_ECL_TYPE_MAP.lookup e.data.ecl_type with
      | none => simp [pack_solar_info, hcd, hlook] at h
      | some ecl =>
          simp only [pack_solar_info, hcd, hlook, Option.pure_def, Option.bind_eq_bind,
            Option.map_some', Option.some_bind, Option.bind_eq_some, Option.some_inj] at h
          obtain ⟨b0, h0, b1, h1, b2, h2, b3, h3, b4, h4, b5, h5, b6, h6, rfl⟩ := h
          simp only [packI16] at h0 h1
          simp only [packU16] at h2
          simp only [packU8] at h3 h4 h5 h6
          split at h0 <;> rename_i hc0 <;> simp at h0
          split at h1 <;> rename_i hc1 <;> simp at h1
          split at h2 <;> rename_i hc2 <;> simp at h2
          split at h3 <;> rename_i hc3 <;> simp at h3
          split at h4 <;> rename_i hc4 <;> simp at h4
          split at h5 <;> rename_i hc5 <;> simp at h5
          split at h6 <;> rename_i hc6 <;> simp at h6
          subst h0 h1 h2 h3 h4 h5 h6
          exact ⟨65535, ecl, rfl, rfl, hc2.1, hc2.2, by omega, by omega,
            by simp [Int.toNat_natCast]⟩
  | some s =>
      cases hlook : SOLAR_ECL_TYPE_MAP.lookup e.data.ecl_type with
      | none => simp [pack_solar_info, hcd, hlook] at h
      | some ecl =>
          simp only [pack_solar_info, hcd, hlook, Option.pure_def, Option.bind_eq_bind,
            Option.map_some', Option.some_bind, Option.bind_eq_some, Option.some_inj] at h
          obtain ⟨dur, hdur, b0, h0, b1, h1, b2, h2, b3, h3, b4, h4, b5, h5, b6, h6, rfl⟩ := h
          simp only [packI16] at h0 h1
          simp only [packU16] at h2
          simp only [packU8] at h3 h4 h5 h6
          split at h0 <;> rename_i hc0 <;> simp at h0
          split at h1 <;> rename_i hc1 <;> simp at h1
          split at h2 <;> rename_i hc2 <;> simp at h2
          split at h3 <;> rename_i hc3 <;> simp at h3
          split at h4 <;> rename_i hc4 <;> simp at h4
          split at h5 <;> rename_i hc5 <;> simp at h5
          split at h6 <;> rename_i hc6 <;> simp at h6
          subst h0 h1 h2 h3 h4 h5 h6
          exact ⟨dur, ecl, hdur, rfl, hc2.1, hc2.2, by omega, by omega,
            by simp [Int.toNat_natCast]⟩

theorem relGapWalk_length (prev : VRec) (l : List VRec) :
    (relGapWalk prev l).length =
      ((prev :: l).zip l).countP (fun q => q.2.rel_num - q.1.rel_num ≠ 1) := by
  induction l generalizing prev with
  | nil => simp [relGapWalk]
  | cons cur rest ih =>
      simp only [relGapWalk, List.length_append, ih cur, List.zip_cons_cons,
        List.countP_cons]
      by_cases hc : cur.rel_num - prev.rel_num ≠ 1 <;> simp [hc] <;> omega

theorem relGapList_length (l : List VRec) :
    (relGapList l).length =
      (l.zip l.tail).countP (fun q => q.2.rel_num - q.1.rel_num ≠ 1) := by
  cases l with
  | nil => simp [relGapList]
  | cons a rest => simpa [relGapList] using relGapWalk_length a rest

theorem processFiles_decomp (gs : ℚ) (dir : SeriesDir) :
    (processFiles gs dir).1 + (processFiles gs dir).2.1.length +
        (processFiles gs dir).2.2.length =
      (dir.map (fun ent => fileDefectCount gs ent.2)).sum := by
  induction dir with
  | nil => simp [processFiles]
  | cons ent rest ih =>
      obtain ⟨sn, out⟩ := ent
      cases out with
      | unreadable =>
          have hh : fileDefectCount gs FileOutcome.unreadable = 1 := rfl
          simp only [processFiles, List.map_cons, List.sum_cons, hh]
          omega
      | parsed recs =>
          cases recs with
          | nil =>
              have hh : fileDefectCount gs (FileOutcome.parsed []) = 1 := rfl
              simp only [processFiles, List.map_cons, List.sum_cons, hh]
              omega
          | cons a l =>
              have hh : fileDefectCount gs (FileOutcome.parsed (a :: l)) =
                  (relGapList (sortByRel (a :: l))).length +
                    (timeGapList gs (sortByRel (a :: l))).length := rfl
              simp only [processFiles, List.map_cons, List.sum_cons, hh,
                List.length_append]
              omega

theorem u16le_at0 (a b c d e f g h i j : ℕ) :
    u16le [a, b, c, d, e, f, g, h, i, j] 0 = a + 256 * b := rfl

theorem u16le_at2 (a b c d e f g h i j : ℕ) :
    u16le [a, b, c, d, e, f, g, h, i, j] 2 = c + 256 * d := rfl

theorem u16le_at4 (a b c d e f g h i j : ℕ) :
    u16le [a, b, c, d, e, f, g, h, i, j] 4 = e + 256 * f := rfl

set_option maxRecDepth 100000

/-! ### Claim theorems -/

/-- Claim C1 (amended): a solar record whose type code string is not in
`SOLAR_ECL_TYPE_MAP` aborts the pack (the build-time `KeyError` is fatal),
but a lunar record whose type code string is not in `LUNAR_ECL_TYPE_MAP`
does not abort: its `ecl_type` byte is silently encoded as the default 0. -/
theorem c1_theorem :
    (∀ e : Entry SolarData, SOLAR_ECL_TYPE_MAP.lookup e.data.ecl_type = none →
        pack_solar_info e = none) ∧
    (∀ (e : Entry LunarData) (bs : List ℕ), pack_lunar_info e = some bs →
        bs.getD 8 0 = (LUNAR_ECL_TYPE_MAP.lookup e.data.ecl_type).getD 0) := by
  constructor
  · intro e h
    cases hd : e.data.central_duration with
    | none => simp [pack_solar_info, hd, h]
    | some s =>
        cases hp : parseDurationStr s with
        | none => simp [pack_solar_info, hd, hp]
        | some d => simp [pack_solar_info, hd, hp, h]
  · intro e bs h
    rw [(pack_lunar_info_some h).2.2.2.2.2]
    rfl

/-- Claim C1 counterexample: the lunar packer, given the unmapped type code
"Z", does not halt; it emits a full 10-byte record whose type byte is 0 —
the enumeration value of the valid code "N" — so the build proceeds with a
silent default, contrary to the claim. -/
theorem c1_counterexample :
    LUNAR_ECL_TYPE_MAP.lookup "Z" = none ∧
    pack_lunar_info c1LunarBad = some [255, 255, 255, 255, 255, 255, 7, 3, 0, 0] ∧
    LUNAR_ECL_TYPE_MAP.lookup "N" = some 0 := by
  exact ⟨by decide, by decide, by decide⟩

/-- Claim C1 witness: the solar packer does halt on the unmapped code "Z". -/
theorem c1_witness : pack_solar_info c1SolarBad = none :=
  c1_theorem.1 c1SolarBad (by decide)

/-- Claim C2 (amended): in the lunar packer every absent duration encodes as
the sentinel `0xFFFF` and every present duration that packs successfully
encodes as `min(round(v*60), 0xFFFE)` — clamped above only; a present value
whose computed seconds are negative makes the pack fail. In the solar packer
an absent central duration encodes as `0xFFFF`, and a present parsed duration
is encoded verbatim with no clamping: a parsed value above `0xFFFF` makes the
pack fail, and the parsed value `0xFFFF` collides with the sentinel. -/
theorem c2_theorem :
    (∀ (e : Entry LunarData) (bs : List ℕ), pack_lunar_info e = some bs →
        (e.data.pen_duration_m = none → u16le bs 0 = 0xFFFF) ∧
        (e.data.par_duration_m = none → u16le bs 2 = 0xFFFF) ∧
        (e.data.total_duration_m = none → u16le bs 4 = 0xFFFF) ∧
        (∀ v, e.data.pen_duration_m = some v →
            u16le bs 0 = (min (pyRound (v * 60)) 0xFFFE).toNat) ∧
        (∀ v, e.data.par_duration_m = some v →
            u16le bs 2 = (min (pyRound (v * 60)) 0xFFFE).toNat) ∧
        (∀ v, e.data.total_duration_m = some v →
            u16le bs 4 = (min (pyRound (v * 60)) 0xFFFE).toNat)) ∧
    (∀ (e : Entry LunarData) (v : ℚ), e.data.total_duration_m = some v →
        pyRound (v * 60) < 0 → pack_lunar_info e = none) ∧
    (∀ (e : Entry SolarData) (bs : List ℕ), pack_solar_info e = some bs →
        (e.data.central_duration = none → u16le bs 4 = 0xFFFF) ∧
        (∀ s d, e.data.central_duration = some s → parseDurationStr s = some d →
            u16le bs 4 = d.toNat)) ∧
    (∀ (e : Entry SolarData) (s : String) (d : ℤ),
        e.data.central_duration = some s → parseDurationStr s = some d →
        65535 < d → pack_solar_info e = none) := by
  refine ⟨?_, ?_, ?_, ?_⟩
  · intro e bs h
    obtain ⟨-, -, -, -, -, hbs⟩ := pack_lunar_info_some h
    subst hbs
    have hmn : minutes_to_seconds none = 65535 := rfl
    refine ⟨?_, ?_, ?_, ?_, ?_, ?_⟩
    · intro hn
      rw [hn, hmn, u16le_at0]
      decide
    · intro hn
      rw [hn, hmn, u16le_at2]
      decide
    · intro hn
      rw [hn, hmn, u16le_at4]
      decide
    · intro v hv
      have hms : minutes_to_seconds (some v) = min (pyRound (v * 60)) 0xFFFE := rfl
      rw [hv, hms, u16le_at0]
      exact Nat.mod_add_div _ _
    · intro v hv
      have hms : minutes_to_seconds (some v) = min (pyRound (v * 60)) 0xFFFE := rfl
      rw [hv, hms, u16le_at2]
      exact Nat.mod_add_div _ _
    · intro v hv
      have hms : minutes_to_seconds (some v) = min (pyRound (v * 60)) 0xFFFE := rfl
      rw [hv, hms, u16le_at4]
      exact Nat.mod_add_div _ _
  · intro e v hv hneg
    cases hp : pack_lunar_info e with
    | none => rfl
    | some bs =>
        have hpos := (pack_lunar_info_some hp).2.2.1.1
        rw [hv] at hpos
        have hmin : minutes_to_seconds (some v) ≤ pyRound (v * 60) := by
          simp [minutes_to_seconds]
        omega
  · intro e bs h
    obtain ⟨dur, ecl, hdur, hecl, hd0, hd1, hsn, hpos, hbs⟩ := pack_solar_info_some h
    subst hbs
    constructor
    · intro hn
      rw [hn] at hdur
      simp only [Option.some_inj] at hdur
      subst hdur
      rw [u16le_at4]
      decide
    · intro s d hs hd
      rw [hs] at hdur
      simp only [hd, Option.some_inj] at hdur
      subst hdur
      rw [u16le_at4]
      exact Nat.mod_add_div _ _
  · intro e s d hs hd hbig
    cases hp : pack_solar_info e with
    | none => rfl
    | some bs =>
        obtain ⟨dur, ecl, hdur, -, -, hle, -⟩ := pack_solar_info_some hp
        rw [hs] at hdur
        simp only [hd, Option.some_inj] at hdur
        omega

/-- Claim C2 counterexample: the solar central duration "1092m15s" parses to
65535 seconds and is present, yet its encoded uint16 field is `0xFFFF` — the
missing-value sentinel — not the clamped value `0xFFFE` the claim requires,
so present solar values are not clamped to `[0, 0xFFFE]`. -/
theorem c2_counterexample :
    parseDurationStr "1092m15s" = some 65535 ∧
    pack_solar_info c2SolarBig = some [0, 0, 0, 0, 255, 255, 5, 2, 13, 10] ∧
    u16le [0, 0, 0, 0, 255, 255, 5, 2, 13, 10] 4 = 0xFFFF ∧
    (0xFFFF : ℕ) ≠ (min (65535 : ℤ) 0xFFFE).toNat := by
  refine ⟨by decide, ?_, by decide, by decide⟩
  have h0 : pyRound ((0 : ℚ) * 10) = 0 := by norm_num [pyRound]
  have hl : SOLAR_ECL_TYPE_MAP.lookup "T" = some 13 := by decide
  have hd : parseDurationStr "1092m15s" = some 65535 := by decide
  simp only [pack_solar_info, c2SolarBig, h0, hl, hd, Option.pure_def,
    Option.bind_eq_bind, Option.map_some', Option.some_bind]
  norm_num [packI16, packU16, packU8]
  decide

/-- Claim C2 witness: the solar-present conjunct applied to the concrete
record `c2SolarBig`, whose parsed duration 65535 is encoded verbatim. -/
theorem c2_witness :
    u16le [0, 0, 0, 0, 255, 255, 5, 2, 13, 10] 4 = (65535 : ℤ).toNat := by
  have hpack : pack_solar_info c2SolarBig = some [0, 0, 0, 0, 255, 255, 5, 2, 13, 10] := by
    have h0 : pyRound ((0 : ℚ) * 10) = 0 := by norm_num [pyRound]
    have hl : SOLAR_ECL_TYPE_MAP.lookup "T" = some 13 := by decide
    have hd : parseDurationStr "1092m15s" = some 65535 := by decide
    simp only [pack_solar_info, c2SolarBig, h0, hl, hd, Option.pure_def,
      Option.bind_eq_bind, Option.map_some', Option.some_bind]
    norm_num [packI16, packU16, packU8]
    decide
  exact (c2_theorem.2.2.1 c2SolarBig _ hpack).2 "1092m15s" 65535 rfl (by decide)

/-- Claim C3 (amended): `load_eclipses` assigns each record's saros_position
as its zero-based line index within its own series file, so within a series
the positions are contiguous 0..len-1 in file order and the record values are
kept in file order; the position equals the rank by timestamp only when the
file is already time-sorted, not for arbitrary record order. -/
theorem c3_theorem {α : Type} (files : List (ℕ × List (ℤ × α))) (sn : ℕ)
    (recs : List (ℤ × α)) (hmem : (sn, recs) ∈ files)
    (hnd : (files.map Prod.fst).Nodup) :
    ((load_eclipses files).filter (fun e => e.sn = sn)).map Entry.pos =
        List.range recs.length ∧
    ((load_eclipses files).filter (fun e => e.sn = sn)).map Entry.ts =
        recs.map Prod.fst := by
  induction files with
  | nil => simp at hmem
  | cons f rest ih =>
      obtain ⟨snh, recsh⟩ := f
      simp only [List.map_cons, List.nodup_cons] at hnd
      rcases List.mem_cons.mp hmem with heq | hmem2
      · obtain ⟨h1, h2⟩ := Prod.mk.injEq .. ▸ heq
        subst h1 h2
        have hrest : (load_eclipses rest).filter (fun e => e.sn = sn) = [] :=
          filter_load_eclipses_not_mem hnd.1
        simp only [load_eclipses, List.filter_append, hrest, List.append_nil,
          filter_tagPositions_self]
        rw [tagPositions_map_pos, tagPositions_map_ts, List.range_eq_range']
        exact ⟨rfl, rfl⟩
      · have hsnmem : sn ∈ rest.map Prod.fst :=
          List.mem_map.mpr ⟨(sn, recs), hmem2, rfl⟩
        have hne : snh ≠ sn := fun hc => hnd.1 (hc ▸ hsnmem)
        simp only [load_eclipses, List.filter_append,
          filter_tagPositions_ne hne, List.nil_append]
        exact ih hmem2 hnd.2

/-- Claim C3 counterexample: a series file whose two records appear in
reverse time order. The loader assigns positions 0 and 1 in file order, so
after sorting the series by timestamp the positions read [1, 0] — not the
ranks [0, 1] the claim requires — hence saros_position is not the zero-based
rank by timestamp and does depend on the file order. -/
theorem c3_counterexample :
    ((load_eclipses c3Files).filter (fun e => e.sn = 1)).length = 2 ∧
    (sortByTime ((load_eclipses c3Files).filter (fun e => e.sn = 1))).map
        Entry.pos = [1, 0] ∧
    ([1, 0] : List ℕ) ≠ List.range 2 := by
  exact ⟨by decide, by decide, by decide⟩

/-- Claim C3 witness: the amended theorem applied to a concrete two-file
listing, for the series file of saros number 2. -/
theorem c3_witness :
    ((load_eclipses c3GoodFiles).filter (fun e => e.sn = 2)).map Entry.pos =
        List.range ([((50 : ℤ), ())] : List (ℤ × Unit)).length ∧
    ((load_eclipses c3GoodFiles).filter (fun e => e.sn = 2)).map Entry.ts =
        ([((50 : ℤ), ())] : List (ℤ × Unit)).map Prod.fst :=
  c3_theorem c3GoodFiles 2 [(50, ())] (by decide) (by decide)

/-- Claim C4 counterexample: from a digit-named series directory "181" the
builder produces a catalog with one eclipse, yet every one of the 180
SeriesIndex slots has count 0 and an empty truncated list: global index 0
appears in no slot, and the slot counts sum to 0 ≠ 1, so the partition
invariant does not hold for every input record set. -/
theorem c4_counterexample :
    build pack_lunar_info c4BadFiles = some c4BadCat ∧
    c4BadCat.times.length = 1 ∧
    (c4BadCat.slots.map Prod.fst).sum = 0 ∧
    (c4BadCat.slots.all fun sl => sl.2.take sl.1 = []) = true := by
  exact ⟨by decide, by decide, by decide, by decide⟩

/-- Claim C4 witness: the amended theorem's count-sum conclusion at a
concrete two-record build whose saros numbers lie in 1..180. -/
theorem c4_witness :
    (cwGoodCat.slots.map Prod.fst).sum = cwGoodCat.times.length :=
  (c4_theorem pack_lunar_info cwGoodFiles cwGoodCat (by decide) (by decide)).1

/-- Claim C5 witness: the TimeTable monotonicity conclusion at index 0 of a
concrete two-record build. -/
theorem c5_witness :
    cwGoodCat.times.get ⟨0, by decide⟩ ≤ cwGoodCat.times.get ⟨1, by decide⟩ :=
  (c5_theorem pack_lunar_info cwGoodFiles cwGoodCat (by decide)).1 0 (by decide)

/-- Claim C6: on the 5-member series with relative numbers [1,2,3,5,6]
(supplied out of order) the validator's sequence-contiguity check reports
exactly one defect, between the sorted rank-3 and rank-4 entries (relative
numbers 3 and 5, gap 2); and in general the walk reports exactly one defect
per adjacent pair of the rel_num-sorted list whose difference is not +1. -/
theorem c6_theorem :
    (sortByRel c6Series).map VRec.rel_num = [1, 2, 3, 5, 6] ∧
    relGapList (sortByRel c6Series) = [⟨2, 3, "d3", 5, "d5"⟩] ∧
    (∀ l : List VRec, (relGapList l).length =
        (l.zip l.tail).countP (fun q => q.2.rel_num - q.1.rel_num ≠ 1)) :=
  ⟨by decide, by decide, relGapList_length⟩

/-- Claim C7: the validator exits 0 iff the accumulated defect count across
both kinds is zero; one kind's count decomposes as the number of missing
saros numbers 1..180 plus, for every series file independently, that file's
own defects — an unreadable file contributing exactly 1 and an empty file
exactly 1 — so a bad file is counted without stopping the others. -/
theorem c7_theorem (solarDir lunarDir : SeriesDir) (g : ℚ) :
    (validatorExit solarDir lunarDir g = 0 ↔
        check_series solarDir g + check_series lunarDir g = 0) ∧
    (∀ dir : SeriesDir, check_series dir g =
        (missingList dir).length +
          (dir.map (fun ent => fileDefectCount (g * (365.25 : ℚ) * 86400) ent.2)).sum) ∧
    fileDefectCount (g * (365.25 : ℚ) * 86400) FileOutcome.unreadable = 1 ∧
    fileDefectCount (g * (365.25 : ℚ) * 86400) (FileOutcome.parsed []) = 1 := by
  refine ⟨?_, ?_, rfl, rfl⟩
  · by_cases hz : check_series solarDir g + check_series lunarDir g = 0 <;>
      simp [validatorExit, hz]
  · intro dir
    have hd := processFiles_decomp (g * (365.25 : ℚ) * 86400) dir
    unfold check_series
    omega

/-- Claim C8: the reader's type decode is total on every byte value: an
in-range code decodes to the symbolic name whose builder-side enumeration
value is that code (the inverse mapping), and an out-of-range byte decodes
to its decimal string, which is distinct from every valid symbolic code. -/
theorem c8_theorem : ∀ c : ℕ, c < 256 →
    (c < SOLAR_TYPE_NAMES.length →
        SOLAR_ECL_TYPE_MAP.lookup (decodeSolarType c) = some c) ∧
    (SOLAR_TYPE_NAMES.length ≤ c → decodeSolarType c ∉ SOLAR_TYPE_NAMES) ∧
    (c < LUNAR_TYPE_NAMES.length →
        LUNAR_ECL_TYPE_MAP.lookup (decodeLunarType c) = some c) ∧
    (LUNAR_TYPE_NAMES.length ≤ c → decodeLunarType c ∉ LUNAR_TYPE_NAMES) := by
  decide

/-- Claim C8 witness: the decode inverse at code 14 and the out-of-range
decode at byte 200. -/
theorem c8_witness :
    SOLAR_ECL_TYPE_MAP.lookup (decodeSolarType 14) = some 14 ∧
    decodeLunarType 200 ∉ LUNAR_TYPE_NAMES :=
  ⟨(c8_theorem 14 (by decide)).1 (by decide),
   (c8_theorem 200 (by decide)).2.2.2 (by decide)⟩

/-- Claim C9: the reader's range query keeps exactly the rows whose
timestamp t satisfies start ≤ t ≤ end, both bounds inclusive; on the catalog
with timestamps [100, 200, 200, 300] the window [150, 250] returns exactly
the two rows with timestamp 200. -/
theorem c9_theorem :
    (∀ (rows : List Row) (tsStart tsEnd : ℤ) (r : Row),
        r ∈ rangeQuery rows tsStart tsEnd ↔
          r ∈ rows ∧ tsStart ≤ r.ts ∧ r.ts ≤ tsEnd) ∧
    rangeQuery c9Rows 150 250 = [⟨200, 2, "S [A]"⟩, ⟨200, 3, "S [P]"⟩] := by
  constructor
  · intro rows tsStart tsEnd r
    simp only [rangeQuery, List.mem_filter, List.mem_insertionSort,
      decide_eq_true_eq]
    tauto
  · decide

/-- Claim C10: in the solar encoding an absent sun altitude and a genuine
sun altitude of 0 produce byte-for-byte identical packed records — shown in
general for any two records differing only in that field, and on a concrete
pair that packs successfully — so decoding cannot distinguish them. -/
theorem c10_theorem :
    (∀ (sn pos : ℕ) (ts : ℤ) (lat lon : ℚ) (dur : Option String) (et : String),
        pack_solar_info ⟨sn, pos, ts, ⟨lat, lon, dur, et, none⟩⟩ =
          pack_solar_info ⟨sn, pos, ts, ⟨lat, lon, dur, et, some 0⟩⟩ ∧
        (⟨sn, pos, ts, ⟨lat, lon, dur, et, none⟩⟩ : Entry SolarData) ≠
          ⟨sn, pos, ts, ⟨lat, lon, dur, et, some 0⟩⟩) ∧
    pack_solar_info c10Absent = some [0, 0, 0, 0, 255, 255, 1, 0, 13, 0] ∧
    pack_solar_info c10Zero = some [0, 0, 0, 0, 255, 255, 1, 0, 13, 0] ∧
    c10Absent ≠ c10Zero := by
  have h0 : pyRound ((0 : ℚ) * 10) = 0 := by norm_num [pyRound]
  have hl : SOLAR_ECL_TYPE_MAP.lookup "T" = some 13 := by decide
  refine ⟨?_, ?_, ?_, ?_⟩
  · intro sn pos ts lat lon dur et
    constructor
    · simp only [pack_solar_info, Option.getD_none, Option.getD_some]
    · simp [Entry.mk.injEq, SolarData.mk.injEq]
  · simp only [pack_solar_info, c10Absent, h0, hl, Option.pure_def,
      Option.bind_eq_bind, Option.map_some', Option.some_bind]
    norm_num [packI16, packU16, packU8]
    decide
  · simp only [pack_solar_info, c10Zero, h0, hl, Option.pure_def,
      Option.bind_eq_bind, Option.map_some', Option.some_bind]
    norm_num [packI16, packU16, packU8]
    decide
  · simp [c10Absent, c10Zero, Entry.mk.injEq, SolarData.mk.injEq]

end Saros
